import Mathlib

/-!
Verification of the Coin Flip Simulator (src/main.c).

The program keeps two globals, `flip_results` (a heap array, NULL when
absent) and `num_flips`, and offers a menu: generate flips, display them,
show statistics.  We embed the C code shallowly:

  * machine ints become `Int` (values stay far below 2^31, so no wraparound
    can occur and plain integers are faithful);
  * the flip array becomes `List Int` (NULL becomes `none`);
  * `rand()` becomes a stream `Nat → Nat` of the successive return values,
    call number `i` giving `rand i`;
  * `scanf`-driven input becomes a list of tokens `Option Int`
    (`none` models a token `scanf("%d")` fails to parse);
  * `malloc` success becomes a boolean `allocOk`; `exit(EXIT_FAILURE)`
    becomes an `Except` error carrying the exit code and the global state
    at the point of termination.
-/

/-- Constant `SEQUENCE_LENGTH` from main.c line 28. -/
def SEQUENCE_LENGTH : Nat := 5

/-- Constant `HEADS` from main.c line 29. -/
def HEADS : Int := 0

/-- Constant `TAILS` from main.c line 30. -/
def TAILS : Int := 1

/-- Constant `MIN_FLIPS` from main.c line 27. -/
def MIN_FLIPS : Int := 1

/-- Constant `MAX_FLIPS` from main.c line 26. -/
def MAX_FLIPS : Int := 100000

/-- The two globals of main.c lines 33-34: `flip_results` (NULL when no
buffer exists) and `num_flips`. -/
structure Session where
  flip_results : Option (List Int)
  num_flips : Nat
deriving Repr, DecidableEq

/-- Program state at startup: `flip_results = NULL`, `num_flips = 0`. -/
def initialSession : Session := ⟨none, 0⟩

/-- The local variables of `statistics` (main.c lines 178-183). -/
structure StatsState where
  heads_sequences : Nat
  tails_sequences : Nat
  current_heads_streak : Nat
  current_tails_streak : Nat
  total_heads : Nat
  total_tails : Nat
deriving Repr, DecidableEq

/-- Initial values of the `statistics` locals (all zero). -/
def statsInit : StatsState := ⟨0, 0, 0, 0, 0, 0⟩

/-- One iteration of the loop of `statistics` (main.c lines 191-207):
on HEADS bump `total_heads` and the heads streak, reset the tails streak,
and count a heads sequence exactly when the streak reaches
`SEQUENCE_LENGTH`; the `else` branch treats any non-HEADS value as tails,
symmetrically. -/
def statisticsStep (s : StatsState) (flip : Int) : StatsState :=
  if flip = HEADS then
    { s with
      total_heads := s.total_heads + 1
      current_heads_streak := s.current_heads_streak + 1
      current_tails_streak := 0
      heads_sequences :=
        if s.current_heads_streak + 1 = SEQUENCE_LENGTH then
          s.heads_sequences + 1
        else s.heads_sequences }
  else
    { s with
      total_tails := s.total_tails + 1
      current_tails_streak := s.current_tails_streak + 1
      current_heads_streak := 0
      tails_sequences :=
        if s.current_tails_streak + 1 = SEQUENCE_LENGTH then
          s.tails_sequences + 1
        else s.tails_sequences }

/-- The whole scan of `statistics` over a buffer (main.c lines 191-207). -/
def statisticsFold (l : List Int) : StatsState :=
  l.foldl statisticsStep statsInit

/-- The buffer built by `generate_flips` (main.c lines 122-124): slot `i`
is filled by the `i`-th call of `rand()`, reduced mod 2. -/
def genBuffer (count : Nat) (rand : Nat → Nat) : List Int :=
  (List.range count).map fun i => ((rand i % 2 : Nat) : Int)

/-- `flip_to_string` (main.c lines 139-143). -/
def flip_to_string (flip : Int) : String :=
  if flip = HEADS then "HEADS"
  else if flip = TAILS then "TAILS"
  else "UNKNOWN"

/-- Whether a token is accepted by `get_valid_input` (main.c line 72):
`scanf` must parse an integer and it must lie in `[min, max]`. -/
def validTok (min max : Int) : Option Int → Bool
  | some x => decide (min ≤ x) && decide (x ≤ max)
  | none => false

/-- `get_valid_input` (main.c lines 69-79) over a token stream: skip
tokens until the first valid one, returning it with the remaining stream;
`none` when the stream runs out (the C loop would then keep waiting). -/
def get_valid_input (min max : Int) : List (Option Int) → Option (Int × List (Option Int))
  | [] => none
  | t :: rest =>
    if validTok min max t then
      match t with
      | some x => some (x, rest)
      | none => none
    else get_valid_input min max rest

/-- The re-prompt message `get_valid_input` prints for each rejected
token (main.c line 73). -/
def repromptMsg (min max : Int) : String :=
  s!"Please enter a number between {min} and {max}: "

/-- The re-prompt messages printed while `get_valid_input` skips invalid
tokens (main.c lines 71-76): one per rejected token, stopping at the
first valid one. -/
def repromptMsgs (min max : Int) : List (Option Int) → List String
  | [] => []
  | t :: rest =>
    if validTok min max t then []
    else repromptMsg min max :: repromptMsgs min max rest

/-- The buffer the loops of `display_flips` and `statistics` actually
read: element `i` is `flip_results[i]` for `i < num_flips` (the C code
indexes the raw array; under the session invariant the bounds match and
this is the stored buffer itself). -/
def readBuf (st : Session) : List Int :=
  (List.range st.num_flips).map fun i => (st.flip_results.getD []).getD i 0

/-- Result of `display_flips`: either the no-data message (main.c lines
152-155) or the table of lines, each line holding the 1-based index, the
numeric flip and its text label (lines 157-165). -/
inductive DisplayOut where
  | noData
  | table (lines : List (Nat × Int × String))
deriving Repr, DecidableEq

/-- `display_flips` (main.c lines 151-169) over the session state: line
`i` of the table prints the 1-based index, `flip_results[i]` and its
label. -/
def display_flips (st : Session) : DisplayOut :=
  if st.num_flips = 0 then .noData
  else .table ((List.range st.num_flips).map fun i =>
    (i + 1, (st.flip_results.getD []).getD i 0,
      flip_to_string ((st.flip_results.getD []).getD i 0)))

/-- Result of `statistics`: either the no-data message (main.c lines
185-189) or the computed report together with the two percentages of
lines 211-214, `total / num_flips * 100` (kept exact in `ℚ`; the C code
prints them as doubles, which only matters for display rounding). -/
inductive StatsOut where
  | noData
  | report (r : StatsState) (heads_pct tails_pct : ℚ)
deriving Repr, DecidableEq

/-- `statistics` (main.c lines 177-221) over the session state. -/
def statistics (st : Session) : StatsOut :=
  if st.num_flips = 0 then .noData
  else
    let r := statisticsFold (readBuf st)
    .report r ((r.total_heads : ℚ) / (st.num_flips : ℚ) * 100)
      ((r.total_tails : ℚ) / (st.num_flips : ℚ) * 100)

/-- Lines 110-126 of `generate_flips` plus the `num_flips` assignment of
main.c line 249: the old buffer is freed and the pointer nulled, then the
new array is allocated; on allocation failure the process exits with
`EXIT_FAILURE` (= 1), the globals at that point holding a NULL
`flip_results` and the old `num_flips`; on success every slot is filled
from `rand()` and `num_flips` becomes the requested count. -/
def generate_flips_core (st : Session) (count : Nat) (allocOk : Bool)
    (rand : Nat → Nat) : Except (Nat × Session) Session :=
  if allocOk then .ok ⟨some (genBuffer count rand), count⟩
  else .error (1, ⟨none, st.num_flips⟩)

/-- One iteration of the menu loop of `main` (main.c lines 241-268):
read a choice with `get_valid_input(0, 3)`; on 1 read a count with
`get_valid_input(MIN_FLIPS, MAX_FLIPS)` and generate; on 0, 2, 3 the
session state is unchanged.  `none` means no successor running state
(input stream exhausted, or process terminated by allocation failure). -/
def menuStep (st : Session) (inputs : List (Option Int)) (allocOk : Bool)
    (rand : Nat → Nat) : Option (Session × List (Option Int)) :=
  match get_valid_input 0 3 inputs with
  | none => none
  | some (choice, rest) =>
    if choice = 1 then
      match get_valid_input MIN_FLIPS MAX_FLIPS rest with
      | none => none
      | some (count, rest2) =>
        match generate_flips_core st count.toNat allocOk rand with
        | .error _ => none
        | .ok st' => some (st', rest2)
    else some (st, rest)

/-- The session invariant of the spec (§3): either the buffer is absent
(`num_flips = 0`, no storage referenced) or it is present with length
equal to `num_flips`, in `[MIN_FLIPS, MAX_FLIPS]`. -/
def SessionInv (st : Session) : Prop :=
  (st.num_flips = 0 ∧ st.flip_results = none) ∨
    (∃ buf, st.flip_results = some buf ∧ buf.length = st.num_flips ∧
      1 ≤ st.num_flips ∧ st.num_flips ≤ 100000)

/-- Modelled from the spec (glossary and §4.3): the number of maximal
runs of the outcome `v` whose length is at least `k`.  When the list
starts with `v`, the maximal run at the front has length
`1 + |takeWhile (= v)|`; it contributes one when that length reaches `k`,
and counting continues after the run. -/
def maximalRunsAtLeast (v : Int) (k : Nat) : List Int → Nat
  | [] => 0
  | x :: xs =>
    if x = v then
      (if k ≤ (xs.takeWhile (fun y => decide (y = v))).length + 1 then 1 else 0)
        + maximalRunsAtLeast v k (xs.dropWhile (fun y => decide (y = v)))
    else
      maximalRunsAtLeast v k xs
termination_by l => l.length
decreasing_by
  · simp only [List.length_cons]
    exact Nat.lt_succ_of_le (List.Sublist.length_le (List.dropWhile_sublist _))
  · simp

/-- Proof device for the heads side of the scan: the number of times a
streak of value `v` reaches exactly `SEQUENCE_LENGTH` while scanning `l`,
entering with a current streak of `c`. -/
def runsFromVal (v : Int) (c : Nat) : List Int → Nat
  | [] => 0
  | x :: xs =>
    if x = v then
      (if c + 1 = SEQUENCE_LENGTH then 1 else 0) + runsFromVal v (c + 1) xs
    else runsFromVal v 0 xs

/-- Proof device for the tails side of the scan: like `runsFromVal`, but
the streak advances on every non-HEADS value, exactly as the `else`
branch of the loop does. -/
def nonzeroRunsFrom (c : Nat) : List Int → Nat
  | [] => 0
  | x :: xs =>
    if x = HEADS then nonzeroRunsFrom 0 xs
    else (if c + 1 = SEQUENCE_LENGTH then 1 else 0) + nonzeroRunsFrom (c + 1) xs

theorem foldl_heads_sequences (l : List Int) (s : StatsState) :
    (l.foldl statisticsStep s).heads_sequences =
      s.heads_sequences + runsFromVal HEADS s.current_heads_streak l := by
  induction l generalizing s with
  | nil => simp [runsFromVal]
  | cons x xs ih =>
    rw [List.foldl_cons, ih]
    by_cases hx : x = HEADS
    · subst hx
      simp [statisticsStep, runsFromVal]
      split_ifs <;> omega
    · simp [statisticsStep, runsFromVal, hx]

theorem foldl_tails_sequences (l : List Int) (s : StatsState) :
    (l.foldl statisticsStep s).tails_sequences =
      s.tails_sequences + nonzeroRunsFrom s.current_tails_streak l := by
  induction l generalizing s with
  | nil => simp [nonzeroRunsFrom]
  | cons x xs ih =>
    rw [List.foldl_cons, ih]
    by_cases hx : x = HEADS
    · subst hx
      simp [statisticsStep, nonzeroRunsFrom]
    · simp [statisticsStep, nonzeroRunsFrom, hx]
      split_ifs <;> omega

theorem foldl_totals (l : List Int) (s : StatsState) :
    (l.foldl statisticsStep s).total_heads =
      s.total_heads + l.countP (fun x => decide (x = HEADS)) ∧
    (l.foldl statisticsStep s).total_tails =
      s.total_tails + l.countP (fun x => decide (x ≠ HEADS)) := by
  induction l generalizing s with
  | nil => simp
  | cons x xs ih =>
    refine ⟨?_, ?_⟩ <;> rw [List.foldl_cons]
    · rw [(ih _).1]
      by_cases hx : x = HEADS
      · subst hx
        simp [statisticsStep, List.countP_cons]
        omega
      · simp [statisticsStep, List.countP_cons, hx]
    · rw [(ih _).2]
      by_cases hx : x = HEADS
      · subst hx
        simp [statisticsStep, List.countP_cons]
      · simp [statisticsStep, List.countP_cons, hx]
        omega

theorem runsFromVal_head_ne (v : Int) (c : Nat) (rest : List Int)
    (hrest : ∀ y, rest.head? = some y → y ≠ v) :
    runsFromVal v c rest = runsFromVal v 0 rest := by
  cases rest with
  | nil => simp [runsFromVal]
  | cons y ys =>
    have hy : y ≠ v := hrest y rfl
    simp [runsFromVal, hy]

theorem runsFromVal_replicate (v : Int) (k c : Nat) (rest : List Int)
    (hrest : ∀ y, rest.head? = some y → y ≠ v) :
    runsFromVal v c (List.replicate k v ++ rest) =
      (if c < SEQUENCE_LENGTH ∧ SEQUENCE_LENGTH ≤ c + k then 1 else 0)
        + runsFromVal v 0 rest := by
  induction k generalizing c with
  | zero =>
    simp only [List.replicate_zero, List.nil_append]
    rw [runsFromVal_head_ne v c rest hrest]
    have hc : ¬ (c < SEQUENCE_LENGTH ∧ SEQUENCE_LENGTH ≤ c + 0) := by omega
    rw [if_neg hc]
    simp
  | succ k ih =>
    simp only [List.replicate_succ, List.cons_append]
    simp only [runsFromVal, if_pos rfl]
    rw [ih (c + 1)]
    split_ifs <;> omega

theorem runsFromVal_eq_maximalRuns_aux (v : Int) :
    ∀ n, ∀ l : List Int, l.length ≤ n →
      runsFromVal v 0 l = maximalRunsAtLeast v SEQUENCE_LENGTH l := by
  intro n
  induction n with
  | zero =>
    intro l hl
    have : l = [] := List.length_eq_zero.mp (Nat.le_zero.mp hl)
    subst this
    simp [runsFromVal, maximalRunsAtLeast]
  | succ n ih =>
    intro l hl
    match l with
    | [] => simp [runsFromVal, maximalRunsAtLeast]
    | x :: xs =>
      by_cases hx : x = v
      · subst hx
        have hdecomp :
            xs.takeWhile (fun y => decide (y = x)) ++ xs.dropWhile (fun y => decide (y = x)) = xs :=
          List.takeWhile_append_dropWhile _ _
        have hrep : xs.takeWhile (fun y => decide (y = x)) =
            List.replicate (xs.takeWhile (fun y => decide (y = x))).length x := by
          refine List.eq_replicate_length.mpr fun b hb => ?_
          simpa using List.mem_takeWhile_imp hb
        have hrest : ∀ y,
            (xs.dropWhile (fun y => decide (y = x))).head? = some y → y ≠ x := by
          intro y hy
          have h := List.head?_dropWhile_not (fun y => decide (y = x)) xs
          rw [hy] at h
          simpa using h
        have hx_cons : x :: xs =
            List.replicate ((xs.takeWhile (fun y => decide (y = x))).length + 1) x ++
              xs.dropWhile (fun y => decide (y = x)) := by
          rw [List.replicate_succ, List.cons_append, ← hrep, hdecomp]
        have hrest_len : (xs.dropWhile (fun y => decide (y = x))).length ≤ n := by
          have h1 := List.Sublist.length_le (List.dropWhile_sublist (l := xs)
            (fun y => decide (y = x)))
          simp only [List.length_cons] at hl
          omega
        have hR : maximalRunsAtLeast x SEQUENCE_LENGTH (x :: xs) =
            (if SEQUENCE_LENGTH ≤ (xs.takeWhile (fun y => decide (y = x))).length + 1
              then 1 else 0)
              + maximalRunsAtLeast x SEQUENCE_LENGTH (xs.dropWhile (fun y => decide (y = x))) := by
          rw [maximalRunsAtLeast.eq_2]
          simp
        rw [hR, hx_cons, runsFromVal_replicate x _ 0 _ hrest, ← ih _ hrest_len]
        have hS : 0 < SEQUENCE_LENGTH := by decide
        split_ifs <;> omega
      · have hxs : xs.length ≤ n := by
          simp only [List.length_cons] at hl; omega
        simp only [runsFromVal, if_neg hx, maximalRunsAtLeast]
        exact ih xs hxs

theorem runsFromVal_eq_maximalRuns (v : Int) (l : List Int) :
    runsFromVal v 0 l = maximalRunsAtLeast v SEQUENCE_LENGTH l :=
  runsFromVal_eq_maximalRuns_aux v l.length l le_rfl

theorem nonzeroRunsFrom_eq_runsFromVal (l : List Int)
    (h01 : ∀ x ∈ l, x = HEADS ∨ x = TAILS) :
    ∀ c, nonzeroRunsFrom c l = runsFromVal TAILS c l := by
  induction l with
  | nil => intro c; rfl
  | cons x xs ih =>
    intro c
    have hxs : ∀ y ∈ xs, y = HEADS ∨ y = TAILS := fun y hy =>
      h01 y (List.mem_cons_of_mem _ hy)
    rcases h01 x (List.mem_cons_self x xs) with hx | hx <;>
      simp [nonzeroRunsFrom, runsFromVal, hx, HEADS, TAILS, ih hxs]

/-- Claim C1: for every non-empty buffer of outcomes, the run counters of
`statistics` equal the number of maximal runs of that outcome whose length
is at least the threshold `SEQUENCE_LENGTH` = 5 (threshold-crossing
semantics); in particular a single maximal run of length 12, 5 or 10
contributes exactly 1 and a run of length 4 contributes 0. -/
theorem claim_C1_run_counts (l : List Int) (hne : l ≠ [])
    (h01 : ∀ x ∈ l, x = HEADS ∨ x = TAILS) :
    ((statisticsFold l).heads_sequences = maximalRunsAtLeast HEADS SEQUENCE_LENGTH l ∧
      (statisticsFold l).tails_sequences = maximalRunsAtLeast TAILS SEQUENCE_LENGTH l) ∧
    (statisticsFold (List.replicate 12 HEADS)).heads_sequences = 1 ∧
    (statisticsFold (List.replicate 5 HEADS)).heads_sequences = 1 ∧
    (statisticsFold (List.replicate 10 HEADS)).heads_sequences = 1 ∧
    (statisticsFold (List.replicate 4 HEADS)).heads_sequences = 0 := by
  refine ⟨⟨?_, ?_⟩, by decide, by decide, by decide, by decide⟩
  · rw [statisticsFold, foldl_heads_sequences]
    simpa [statsInit] using runsFromVal_eq_maximalRuns HEADS l
  · rw [statisticsFold, foldl_tails_sequences]
    have h := nonzeroRunsFrom_eq_runsFromVal l h01 0
    simpa [statsInit, h] using runsFromVal_eq_maximalRuns TAILS l

/-- Witness for claim C1: a concrete buffer with a heads run of length 7,
a tails run of length 5 and a trailing heads run of length 4. -/
theorem claim_C1_run_counts_witness :
    (([0, 0, 0, 0, 0, 0, 0, 1, 1, 1, 1, 1, 0, 0, 0, 0] : List Int) ≠ []) ∧
    (∀ x ∈ ([0, 0, 0, 0, 0, 0, 0, 1, 1, 1, 1, 1, 0, 0, 0, 0] : List Int),
      x = HEADS ∨ x = TAILS) ∧
    (((statisticsFold [0, 0, 0, 0, 0, 0, 0, 1, 1, 1, 1, 1, 0, 0, 0, 0]).heads_sequences =
        maximalRunsAtLeast HEADS SEQUENCE_LENGTH
          [0, 0, 0, 0, 0, 0, 0, 1, 1, 1, 1, 1, 0, 0, 0, 0] ∧
      (statisticsFold [0, 0, 0, 0, 0, 0, 0, 1, 1, 1, 1, 1, 0, 0, 0, 0]).tails_sequences =
        maximalRunsAtLeast TAILS SEQUENCE_LENGTH
          [0, 0, 0, 0, 0, 0, 0, 1, 1, 1, 1, 1, 0, 0, 0, 0]) ∧
    (statisticsFold (List.replicate 12 HEADS)).heads_sequences = 1 ∧
    (statisticsFold (List.replicate 5 HEADS)).heads_sequences = 1 ∧
    (statisticsFold (List.replicate 10 HEADS)).heads_sequences = 1 ∧
    (statisticsFold (List.replicate 4 HEADS)).heads_sequences = 0) :=
  ⟨by decide, by decide, claim_C1_run_counts _ (by decide) (by decide)⟩

/-- Claim C2: for every analyzed buffer of length n, `total_heads` plus
`total_tails` equals n — every element is counted exactly once. -/
theorem claim_C2_totals (l : List Int) :
    (statisticsFold l).total_heads + (statisticsFold l).total_tails = l.length := by
  have h := foldl_totals l statsInit
  rw [statisticsFold, h.1, h.2]
  simp only [statsInit, Nat.zero_add]
  rw [List.length_eq_countP_add_countP (fun x => decide (x = HEADS)) l]
  congr 1
  exact List.countP_congr (fun x _ => by simp)

theorem genBuffer_length (count : Nat) (rand : Nat → Nat) :
    (genBuffer count rand).length = count := by
  simp [genBuffer]

theorem genBuffer_mem (count : Nat) (rand : Nat → Nat) :
    ∀ x ∈ genBuffer count rand, x = HEADS ∨ x = TAILS := by
  intro x hx
  simp only [genBuffer, List.mem_map, List.mem_range] at hx
  obtain ⟨i, _, rfl⟩ := hx
  rcases Nat.mod_two_eq_zero_or_one (rand i) with h2 | h2 <;> simp [h2, HEADS, TAILS]

theorem get_valid_input_skip (min max : Int) (bads rest : List (Option Int))
    (h : ∀ t ∈ bads, validTok min max t = false) :
    get_valid_input min max (bads ++ rest) = get_valid_input min max rest := by
  induction bads with
  | nil => rfl
  | cons t ts ih =>
    have ht := h t (List.mem_cons_self t ts)
    simp only [List.cons_append, get_valid_input, ht, Bool.false_eq_true, if_false]
    exact ih fun t' ht' => h t' (List.mem_cons_of_mem _ ht')

theorem get_valid_input_range (min max : Int) :
    ∀ inputs x rest, get_valid_input min max inputs = some (x, rest) →
      min ≤ x ∧ x ≤ max := by
  intro inputs
  induction inputs with
  | nil => intro x rest h; simp [get_valid_input] at h
  | cons t ts ih =>
    intro x rest h
    by_cases hv : validTok min max t = true
    · cases t with
      | none => simp [validTok] at hv
      | some y =>
        simp only [get_valid_input, hv, if_true, Option.some.injEq] at h
        obtain ⟨rfl, rfl⟩ : y = x ∧ ts = rest := by
          exact ⟨congrArg Prod.fst h, congrArg Prod.snd h⟩
        simpa [validTok] using hv
    · simp only [get_valid_input, hv, if_false] at h
      exact ih x rest h

example : get_valid_input 0 3 [some 7, none, some 2, some 1] = some (2, [some 1]) := by decide
example : statisticsFold [0, 0, 0] = ⟨0, 0, 3, 0, 3, 0⟩ := by decide
example : (statisticsFold (List.replicate 12 0)).heads_sequences = 1 := by decide
example : (statisticsFold (List.replicate 10 1)).tails_sequences = 1 := by decide
example : maximalRunsAtLeast 0 5 [0, 0, 0, 0, 0, 0, 1, 0, 0, 0, 0, 0] = 2 := by
  simp [maximalRunsAtLeast, List.takeWhile, List.dropWhile]
example : maximalRunsAtLeast 0 5 [0, 0, 0, 0] = 0 := by
  simp [maximalRunsAtLeast, List.takeWhile, List.dropWhile]

/-- Claim C3: for every count in [MIN_FLIPS, MAX_FLIPS], a successful
generation produces a buffer of exactly `count` outcomes, each HEADS or
TAILS, slot `i` being filled by the `i`-th call of the random source. -/
theorem claim_C3_generate (count : Nat) (rand : Nat → Nat)
    (h : 1 ≤ count ∧ count ≤ 100000) :
    (genBuffer count rand).length = count ∧
    (∀ x ∈ genBuffer count rand, x = HEADS ∨ x = TAILS) ∧
    (∀ i, i < count → (genBuffer count rand)[i]? = some ((rand i % 2 : Nat) : Int)) := by
  refine ⟨genBuffer_length count rand, genBuffer_mem count rand, ?_⟩
  intro i hi
  simp [genBuffer, List.getElem?_map, List.getElem?_range hi]

/-- Witness for claim C3 at count 3 with the identity random stream. -/
theorem claim_C3_generate_witness :
    (1 ≤ 3 ∧ 3 ≤ 100000) ∧
    ((genBuffer 3 (fun i => i)).length = 3 ∧
      (∀ x ∈ genBuffer 3 (fun i => i), x = HEADS ∨ x = TAILS) ∧
      (∀ i, i < 3 → (genBuffer 3 (fun i => i))[i]? = some ((i % 2 : Nat) : Int))) :=
  ⟨by decide, claim_C3_generate 3 (fun i => i) (by decide)⟩

/-- Claim C4: when no buffer exists (`num_flips = 0`) both the display
operation and the statistics operation report no data and return without
computing; a statistics report (which is where the percentage division
lives) is only ever produced with a nonzero flip count. -/
theorem claim_C4_no_data (st : Session) (h : st.num_flips = 0) :
    display_flips st = .noData ∧ statistics st = .noData ∧
    (∀ s : Session, ∀ r hp tp, statistics s = .report r hp tp → s.num_flips ≠ 0) := by
  refine ⟨by simp [display_flips, h], by simp [statistics, h], ?_⟩
  intro s r hp tp hrep hzero
  simp [statistics, hzero] at hrep

/-- Witness for claim C4 at the startup state. -/
theorem claim_C4_no_data_witness :
    initialSession.num_flips = 0 ∧
    (display_flips initialSession = .noData ∧ statistics initialSession = .noData ∧
      (∀ s : Session, ∀ r hp tp, statistics s = .report r hp tp → s.num_flips ≠ 0)) :=
  ⟨rfl, claim_C4_no_data initialSession rfl⟩

/-- Claim C5: a successful generation wholly replaces the session buffer:
after two consecutive generations with the same count the state, and hence
the statistics, are determined by the second generation alone, and the
result of generating does not depend on the pre-existing state at all. -/
theorem claim_C5_replace (st alt mid fin : Session) (c : Nat) (r1 r2 : Nat → Nat)
    (h1 : generate_flips_core st c true r1 = .ok mid)
    (h2 : generate_flips_core mid c true r2 = .ok fin) :
    fin = ⟨some (genBuffer c r2), c⟩ ∧
    statistics fin = statistics ⟨some (genBuffer c r2), c⟩ ∧
    generate_flips_core mid c true r2 = generate_flips_core alt c true r2 := by
  have hfin : fin = ⟨some (genBuffer c r2), c⟩ := by
    have := h2.symm
    simpa [generate_flips_core] using this
  exact ⟨hfin, by rw [hfin], by simp [generate_flips_core]⟩

/-- Witness for claim C5: two generations of count 2 from the startup
state, with different random streams. -/
theorem claim_C5_replace_witness :
    (⟨some (genBuffer 2 (fun _ => 1)), 2⟩ : Session) = ⟨some (genBuffer 2 (fun _ => 1)), 2⟩ ∧
    statistics (⟨some (genBuffer 2 (fun _ => 1)), 2⟩ : Session) =
      statistics ⟨some (genBuffer 2 (fun _ => 1)), 2⟩ ∧
    generate_flips_core ⟨some (genBuffer 2 (fun _ => 0)), 2⟩ 2 true (fun _ => 1) =
      generate_flips_core initialSession 2 true (fun _ => 1) :=
  claim_C5_replace initialSession initialSession
    ⟨some (genBuffer 2 (fun _ => 0)), 2⟩ ⟨some (genBuffer 2 (fun _ => 1)), 2⟩
    2 (fun _ => 0) (fun _ => 1) rfl rfl

/-- Claim C6: a flip-count request outside [MIN_FLIPS, MAX_FLIPS] — in
particular 0 and 100001 — is rejected, the user is re-prompted until a
valid value arrives (rejected tokens are simply skipped), and the session
state after the generate command does not depend on the rejected
attempts. -/
theorem claim_C6_boundary_reject (bads rest : List (Option Int)) (st : Session)
    (allocOk : Bool) (rand : Nat → Nat)
    (h : ∀ t ∈ bads, validTok MIN_FLIPS MAX_FLIPS t = false) :
    validTok MIN_FLIPS MAX_FLIPS (some 0) = false ∧
    validTok MIN_FLIPS MAX_FLIPS (some 100001) = false ∧
    get_valid_input MIN_FLIPS MAX_FLIPS (bads ++ rest) =
      get_valid_input MIN_FLIPS MAX_FLIPS rest ∧
    menuStep st (some 1 :: (bads ++ rest)) allocOk rand =
      menuStep st (some 1 :: rest) allocOk rand := by
  have hskip := get_valid_input_skip MIN_FLIPS MAX_FLIPS bads rest h
  refine ⟨by decide, by decide, hskip, ?_⟩
  simp [menuStep, get_valid_input, validTok, hskip]

/-- Witness for claim C6: the rejected attempts 0, 100001 and a
non-integer token, followed by the valid count 5. -/
theorem claim_C6_boundary_reject_witness :
    validTok MIN_FLIPS MAX_FLIPS (some 0) = false ∧
    validTok MIN_FLIPS MAX_FLIPS (some 100001) = false ∧
    get_valid_input MIN_FLIPS MAX_FLIPS ([some 0, some 100001, none] ++ [some 5]) =
      get_valid_input MIN_FLIPS MAX_FLIPS [some 5] ∧
    menuStep initialSession (some 1 :: ([some 0, some 100001, none] ++ [some 5]))
        true (fun _ => 0) =
      menuStep initialSession (some 1 :: [some 5]) true (fun _ => 0) :=
  claim_C6_boundary_reject [some 0, some 100001, none] [some 5] initialSession
    true (fun _ => 0) (by decide)

/-- Claim C7: when allocation fails, generation reports the error and the
process terminates at once with the failure exit status 1 (nonzero), and
the buffer pointer at the point of termination is NULL, referencing no
freed or partially initialized storage. -/
theorem claim_C7_alloc_failure (st : Session) (count : Nat) (rand : Nat → Nat) :
    generate_flips_core st count false rand = .error (1, ⟨none, st.num_flips⟩) ∧
    (∀ code st', generate_flips_core st count false rand = .error (code, st') →
      code ≠ 0 ∧ st'.flip_results = none) := by
  refine ⟨rfl, ?_⟩
  intro code st' h
  have h' : ((1 : Nat), (⟨none, st.num_flips⟩ : Session)) = (code, st') := by
    simpa [generate_flips_core] using h
  obtain ⟨h1, h2⟩ := Prod.mk.injEq .. ▸ h'
  exact ⟨by omega, by rw [← h2]⟩

/-- Claim C8: at the top-level menu prompt, a token that is not one of the
integers 0-3 (including a non-integer token) is rejected: the loop prints
one more re-prompt message and continues, and the session state is not
changed by the rejected token. -/
theorem claim_C8_menu_reject (t : Option Int) (rest : List (Option Int))
    (st : Session) (allocOk : Bool) (rand : Nat → Nat)
    (h : validTok 0 3 t = false) :
    menuStep st (t :: rest) allocOk rand = menuStep st rest allocOk rand ∧
    repromptMsgs 0 3 (t :: rest) = repromptMsg 0 3 :: repromptMsgs 0 3 rest ∧
    validTok 0 3 (some 4) = false ∧ validTok 0 3 (some (-1)) = false ∧
    validTok 0 3 none = false := by
  refine ⟨?_, ?_, by decide, by decide, by decide⟩
  · simp [menuStep, get_valid_input, h]
  · simp [repromptMsgs, h]

/-- Witness for claim C8: the rejected top-level token 7 before a display
command. -/
theorem claim_C8_menu_reject_witness :
    menuStep initialSession (some 7 :: [some 2]) true (fun _ => 0) =
      menuStep initialSession [some 2] true (fun _ => 0) ∧
    repromptMsgs 0 3 (some 7 :: [some 2]) = repromptMsg 0 3 :: repromptMsgs 0 3 [some 2] ∧
    validTok 0 3 (some 4) = false ∧ validTok 0 3 (some (-1)) = false ∧
    validTok 0 3 none = false :=
  claim_C8_menu_reject (some 7) [some 2] initialSession true (fun _ => 0) (by decide)

/-- Claim C9: the session invariant — buffer absent with zero flip count,
or buffer present with length equal to the flip count and within
[1, 100000] — holds at startup and is preserved by every menu operation
that yields a successor running state. -/
theorem claim_C9_session_invariant (st st' : Session) (inputs rest : List (Option Int))
    (allocOk : Bool) (rand : Nat → Nat) (hinv : SessionInv st)
    (hstep : menuStep st inputs allocOk rand = some (st', rest)) :
    SessionInv st' ∧ SessionInv initialSession := by
  refine ⟨?_, Or.inl ⟨rfl, rfl⟩⟩
  unfold menuStep at hstep
  split at hstep
  · cases hstep
  · rename_i choice rest1 hc
    split at hstep
    · rename_i h1
      split at hstep
      · cases hstep
      · rename_i count rest2 hg
        split at hstep
        · cases hstep
        · rename_i stn hok
          cases allocOk with
          | false => simp [generate_flips_core] at hok
          | true =>
            have hstn : stn = ⟨some (genBuffer count.toNat rand), count.toNat⟩ := by
              simpa [generate_flips_core] using hok.symm
            have hst' : st' = stn := by
              have := congrArg Prod.fst (Option.some.inj hstep)
              simpa using this.symm
            have hrange := get_valid_input_range MIN_FLIPS MAX_FLIPS rest1 count rest2 hg
            simp only [MIN_FLIPS, MAX_FLIPS] at hrange
            rw [hst', hstn]
            refine Or.inr ⟨genBuffer count.toNat rand, rfl, genBuffer_length .., ?_, ?_⟩
            · simp only []
              omega
            · simp only []
              omega
    · rename_i h1
      have : st = st' := congrArg Prod.fst (Option.some.inj hstep)
      rw [← this]
      exact hinv

/-- Witness for claim C9: from the startup state, the command sequence
"generate, count 5" leads to a state satisfying the invariant. -/
theorem claim_C9_session_invariant_witness :
    SessionInv ⟨some (genBuffer 5 (fun _ => 0)), 5⟩ ∧ SessionInv initialSession :=
  claim_C9_session_invariant initialSession ⟨some (genBuffer 5 (fun _ => 0)), 5⟩
    [some 1, some 5] [] true (fun _ => 0) (Or.inl ⟨rfl, rfl⟩) rfl

/-- Claim C10: the outcome-to-text conversion is total over the integers
— HEADS gives "HEADS", TAILS gives "TAILS", everything else falls back to
"UNKNOWN" — and since every generated flip is HEADS or TAILS, the display
of a buffer produced by a successful generation never contains
"UNKNOWN". -/
theorem claim_C10_flip_labels :
    (∀ flip : Int, (flip = HEADS → flip_to_string flip = "HEADS") ∧
      (flip = TAILS → flip_to_string flip = "TAILS") ∧
      (flip ≠ HEADS → flip ≠ TAILS → flip_to_string flip = "UNKNOWN")) ∧
    (∀ st : Session, ∀ count : Nat, ∀ allocOk : Bool, ∀ rand : Nat → Nat,
      ∀ st' : Session, generate_flips_core st count allocOk rand = .ok st' →
      ∀ lines, display_flips st' = .table lines →
        ∀ p ∈ lines, p.2.2 ≠ "UNKNOWN") := by
  constructor
  · intro flip
    refine ⟨fun h => by simp [flip_to_string, h], ?_, ?_⟩
    · intro h
      simp [flip_to_string, h, HEADS, TAILS]
    · intro h1 h2
      simp [flip_to_string, h1, h2]
  · intro st count allocOk rand st' hgen lines hlines p hp
    cases allocOk with
    | false => simp [generate_flips_core] at hgen
    | true =>
      have hst' : st' = ⟨some (genBuffer count rand), count⟩ := by
        simpa [generate_flips_core] using hgen.symm
      subst hst'
      by_cases hc : count = 0
      · subst hc; simp [display_flips] at hlines
      · simp only [display_flips, if_neg hc, DisplayOut.table.injEq,
          Option.getD_some] at hlines
        rw [← hlines] at hp
        simp only [List.mem_map, List.mem_range] at hp
        obtain ⟨i, hi, rfl⟩ := hp
        show flip_to_string ((genBuffer count rand).getD i 0) ≠ "UNKNOWN"
        have hlen : i < (genBuffer count rand).length := by
          rw [genBuffer_length]; exact hi
        have hmem : (genBuffer count rand).getD i 0 ∈ genBuffer count rand := by
          rw [List.getD_eq_getElem _ _ hlen]; exact List.getElem_mem hlen
        rcases genBuffer_mem count rand _ hmem with h0 | h0 <;> rw [h0] <;> decide
